import Mathlib

/-!
Verification development for `src/js/core/methods/composetx.js`.

The file shallowly embeds the three parts of that module that the checked
properties concern:

* the request validator (`params`, lines 338-452), a pure function from a raw
  request object to either the first validation error (the thrown
  `Error(...)` message) or the typed method input;
* the account-selection / composing-cycle orchestration
  (`onAccountSelection`, lines 187-247, and `composingCycle`, lines 254-301),
  modelled as pure transition functions over an explicit state, with the
  external transaction composer abstracted as a behaviour record and the
  emitted popup messages collected into an event trace;
* the post-signing finalisation (lines 311-330), modelled as a function that
  also reports how many times `backend.dispose()` ran.

JavaScript dynamic values that flow through the validator are modelled by the
small value universe `JsVal` (undefined, NaN, integer numbers, strings,
booleans), with `parseInt`, `Number` coercion, `+` and `>` restricted to that
fragment (no whitespace trimming, float or `0x` handling, which the checked
inputs never exercise).  External collaborators that are not part of this
repository (coin table lookup, base58 address decoding, string-to-hex
encoding, the composition engine, the backend broadcast call) are abstracted
as function parameters, exactly as the module consumes them.
-/

/-- A JavaScript value of the shapes the validator actually inspects:
`undefined`, `NaN`, an integer-valued number, a string, or a boolean. -/
inductive JsVal where
  | undef
  | nan
  | num (n : Int)
  | str (s : String)
  | bool (b : Bool)
  deriving DecidableEq

/-- JavaScript truthiness for `JsVal` (used by `if (raw.locktime && ...)`). -/
def truthyJs : JsVal → Bool
  | JsVal.undef => false
  | JsVal.nan => false
  | JsVal.num n => n != 0
  | JsVal.str s => s != ""
  | JsVal.bool b => b

/-- JavaScript `String(v)` on the modelled fragment. -/
def jsToString : JsVal → String
  | JsVal.undef => "undefined"
  | JsVal.nan => "NaN"
  | JsVal.num n => toString n
  | JsVal.str s => s
  | JsVal.bool b => if b then "true" else "false"

/-- Value of the maximal leading decimal-digit prefix of a character list;
`none` when the list does not start with a digit. -/
def parseDigits : List Char → Option Nat
  | [] => none
  | c :: rest =>
    if c.isDigit then some (parseDigitsAux rest (c.toNat - 48)) else none
where
  parseDigitsAux : List Char → Nat → Nat
    | [], acc => acc
    | c :: rest, acc =>
      if c.isDigit then parseDigitsAux rest (acc * 10 + (c.toNat - 48)) else acc

/-- JavaScript `parseInt` on a string (decimal, optional sign, maximal digit
prefix; `none` models `NaN`). -/
def parseIntString (s : String) : Option Int :=
  match s.data with
  | '-' :: rest => (parseDigits rest).map (fun n => -(n : Int))
  | '+' :: rest => (parseDigits rest).map (fun n => (n : Int))
  | l => (parseDigits l).map (fun n => (n : Int))

/-- JavaScript `parseInt(v)`: the argument is coerced to a string first, so
`parseInt(undefined)` is `NaN`. -/
def parseIntJs (v : JsVal) : JsVal :=
  match parseIntString (jsToString v) with
  | some n => JsVal.num n
  | none => JsVal.nan

def natOfDigits (l : List Char) : Nat :=
  l.foldl (fun acc c => acc * 10 + (c.toNat - 48)) 0

/-- JavaScript `Number(string)` on the modelled fragment: the empty string is
`0`, otherwise the whole string must be an optionally signed decimal. -/
def numberFromString (s : String) : Option Int :=
  match s.data with
  | [] => some 0
  | '-' :: rest =>
    if !rest.isEmpty && rest.all Char.isDigit then some (-(natOfDigits rest : Int)) else none
  | '+' :: rest =>
    if !rest.isEmpty && rest.all Char.isDigit then some ((natOfDigits rest : Int)) else none
  | l => if l.all Char.isDigit then some ((natOfDigits l : Int)) else none

/-- JavaScript `ToNumber` on the modelled fragment; `none` models `NaN`. -/
def toNumberJs : JsVal → Option Int
  | JsVal.undef => none
  | JsVal.nan => none
  | JsVal.num n => some n
  | JsVal.str s => numberFromString s
  | JsVal.bool b => some (if b then 1 else 0)

def isStrJs : JsVal → Bool
  | JsVal.str _ => true
  | _ => false

/-- JavaScript `+` on the modelled fragment: string concatenation when either
side is a string, numeric addition (with NaN propagation) otherwise.  Used for
`total += out.amount`. -/
def jsAdd (a b : JsVal) : JsVal :=
  if isStrJs a || isStrJs b then JsVal.str (jsToString a ++ jsToString b)
  else
    match toNumberJs a, toNumberJs b with
    | some x, some y => JsVal.num (x + y)
    | _, _ => JsVal.nan

/-- JavaScript `v > 0` (relational comparison via `ToNumber`). -/
def jsGtZero (v : JsVal) : Bool :=
  match toNumberJs v with
  | some n => decide (0 < n)
  | none => false

def isHexChar (c : Char) : Bool :=
  c.isDigit || ('A' ≤ c && c ≤ 'F') || ('a' ≤ c && c ≤ 'f')

/-- The regular expression `/^[0-9A-Fa-f]{6}$/` from line 373: it matches only
strings of exactly six hexadecimal characters. -/
def isHex6 (s : String) : Bool :=
  s.length == 6 && s.data.all isHexChar

/-! ## Validator data model (`params`, lines 338-452) -/

structure Network where
  pubKeyHash : Int
  scriptHash : Int
  deriving DecidableEq

structure CoinInfo where
  coinName : String
  network : Network
  minFee : Int
  deriving DecidableEq

/-- One element of `raw.outputs` with the five fields the validator reads. -/
structure RawOutput where
  type : JsVal
  address : JsVal
  amount : JsVal
  data : JsVal
  dataFormat : JsVal
  deriving DecidableEq

/-- The raw request object.  `outputs = none` models a value for which
`Array.isArray(raw.outputs)` is false; `some l` models an array. -/
structure RawRequest where
  coin : JsVal
  outputs : Option (List RawOutput)
  locktime : JsVal
  push : JsVal
  deriving DecidableEq

/-- A parsed output as built by the validator loop (lines 384-418). -/
inductive ParsedOutput where
  | opreturn (dataHex : JsVal)
  | sendMax (address : JsVal)
  | complete (address : JsVal) (amount : JsVal)
  deriving DecidableEq

/-- The `input` record of the returned `MethodParams` (lines 444-450). -/
structure MethodInput where
  outputs : List ParsedOutput
  locktime : JsVal
  coinInfo : CoinInfo
  total : JsVal
  pushTransaction : Bool
  deriving DecidableEq

/-- Decidable equality of `Except` results, so that concrete validator runs
can be checked by `decide`. -/
instance decEqExcept {ε α : Type} [DecidableEq ε] [DecidableEq α] :
    DecidableEq (Except ε α) := fun a b =>
  match a, b with
  | Except.ok x, Except.ok y =>
    if h : x = y then isTrue (by rw [h])
    else isFalse (fun hh => h (by injection hh))
  | Except.error x, Except.error y =>
    if h : x = y then isTrue (by rw [h])
    else isFalse (fun hh => h (by injection hh))
  | Except.ok _, Except.error _ => isFalse (fun hh => Except.noConfusion hh)
  | Except.error _, Except.ok _ => isFalse (fun hh => Except.noConfusion hh)

/-- External collaborators consumed by the validator: the coin table
(`getCoinInfoByCurrency`), base58 decoding returning the version byte
(`bitcoin.address.fromBase58Check`, `none` models a decoding throw), and the
text-to-hex encoder (`stringToHex`). -/
structure ExtEnv where
  getCoinInfoByCurrency : String → Option CoinInfo
  fromBase58Check : String → Option Int
  stringToHex : String → String

/-- Accumulator of the output-validation loop: `parsedOutputs`, `total`,
`hasSendMax` (lines 349-352). -/
structure OutAcc where
  parsed : List ParsedOutput
  total : JsVal
  hasSendMax : Bool
  deriving DecidableEq

/-- The guard of line 410: `(typeof out.amount === 'string' &&
isNaN(parseInt(out.amount))) && typeof out.amount !== 'number'`, which fires
exactly for strings with no parseable integer prefix. -/
def amountMissing : JsVal → Bool
  | JsVal.str s => (parseIntString s).isNone
  | _ => false

/-- Body of the `for (const out of raw.outputs)` loop (lines 361-423) for one
output.  `outputsLen` is `raw.outputs.length`. -/
def processOutput (env : ExtEnv) (coinInfo : CoinInfo) (outputsLen : Nat)
    (acc : OutAcc) (out : RawOutput) : Except String OutAcc :=
  if out.type = JsVal.str "opreturn" then
    if outputsLen > 1 then
      Except.error "Only one output allowed when sending OP_RETURN transaction"
    else
      match out.data with
      | JsVal.str s =>
        if s.length > 0 then
          if out.dataFormat = JsVal.str "text" then
            if (env.stringToHex s).length > 80 * 2 then
              Except.error "OP_RETURN data size is larger than 80 bytes"
            else
              Except.ok ⟨acc.parsed ++ [ParsedOutput.opreturn (JsVal.str (env.stringToHex s))],
                acc.total, acc.hasSendMax⟩
          else
            if isHex6 s = false then
              Except.error "OP_RETURN data is not valid hexadecimal"
            else if s.length > 80 * 2 then
              Except.error "OP_RETURN data size is larger than 80 bytes"
            else
              Except.ok ⟨acc.parsed ++ [ParsedOutput.opreturn (JsVal.str s)],
                acc.total, acc.hasSendMax⟩
        else
          Except.ok ⟨acc.parsed ++ [ParsedOutput.opreturn (JsVal.str s)],
            acc.total, acc.hasSendMax⟩
      | d =>
        Except.ok ⟨acc.parsed ++ [ParsedOutput.opreturn d], acc.total, acc.hasSendMax⟩
  else if out.type = JsVal.str "send-max" then
    if acc.hasSendMax then
      Except.error "Only one send-max output allowed"
    else
      Except.ok ⟨acc.parsed ++ [ParsedOutput.sendMax out.address], acc.total, true⟩
  else
    match out.address with
    | JsVal.str addr =>
      match env.fromBase58Check addr with
      | none => Except.error ("Invalid address " ++ addr)
      | some version =>
        -- the explicit version-mismatch throw happens inside the try block,
        -- so it is caught and re-thrown as the generic invalid-address error
        if version ≠ coinInfo.network.pubKeyHash ∧ version ≠ coinInfo.network.scriptHash then
          Except.error ("Invalid address " ++ addr)
        else if amountMissing out.amount then
          Except.error "Output without amount"
        else
          Except.ok ⟨acc.parsed ++ [ParsedOutput.complete (JsVal.str addr) (parseIntJs out.amount)],
            jsAdd acc.total out.amount, acc.hasSendMax⟩
    | _ => Except.error "Output without address"

/-- The output-validation loop. -/
def validateOutputs (env : ExtEnv) (coinInfo : CoinInfo) (outputsLen : Nat) :
    List RawOutput → OutAcc → Except String OutAcc
  | [], acc => Except.ok acc
  | out :: rest, acc =>
    match processOutput env coinInfo outputsLen acc out with
    | Except.error e => Except.error e
    | Except.ok acc1 => validateOutputs env coinInfo outputsLen rest acc1

/-- Line 430-433: `push` is taken only from an actual boolean, default false. -/
def parsePush : JsVal → Bool
  | JsVal.bool b => b
  | _ => false

/-- The outputs part of the validator (lines 360-451): the array check, the
loop, the send-max total reset and the construction of the result. -/
def paramsOutputsStep (env : ExtEnv) (coinInfo : CoinInfo) (raw : RawRequest) :
    Except String MethodInput :=
  match raw.outputs with
  | some outs =>
    match validateOutputs env coinInfo outs.length outs ⟨[], JsVal.num 0, false⟩ with
    | Except.error e => Except.error e
    | Except.ok acc =>
      Except.ok ⟨acc.parsed, parseIntJs raw.locktime, coinInfo,
        if jsGtZero acc.total && acc.hasSendMax then JsVal.num 0 else acc.total,
        parsePush raw.push⟩
  | none => Except.error "Outputs is not an Array"

/-- Lines 354-358: the locktime check, then the outputs step. -/
def paramsWithCoin (env : ExtEnv) (coinInfo : CoinInfo) (raw : RawRequest) :
    Except String MethodInput :=
  if truthyJs raw.locktime && (parseIntJs raw.locktime == JsVal.nan) then
    Except.error "Locktime is not a number"
  else
    paramsOutputsStep env coinInfo raw

/-- Line 343: the coin name looked up — `raw.coin` when it is a string,
otherwise the literal `'Bitcoin'`. -/
def coinQuery (raw : RawRequest) : String :=
  match raw.coin with
  | JsVal.str s => s
  | _ => "Bitcoin"

/-- The validator `params` (lines 338-452), returning the first thrown error
message or the method input. -/
def params (env : ExtEnv) (raw : RawRequest) : Except String MethodInput :=
  match env.getCoinInfoByCurrency (coinQuery raw) with
  | none => Except.error ("Coin " ++ jsToString raw.coin ++ " not found")
  | some coinInfo => paramsWithCoin env coinInfo raw

/-- Number of send-max outputs in a parsed output list. -/
def countSendMax (l : List ParsedOutput) : Nat :=
  (l.filter (fun o =>
    match o with
    | ParsedOutput.sendMax _ => true
    | _ => false)).length

/-! ## Session orchestration (`onAccountSelection`, lines 187-247) -/

/-- Result of one composition attempt (hd-wallet `BuildTxResult`), reduced to
the fields the orchestrator reads: the discriminating `type`, the numbers
shown in the fee list, and the error kind. -/
inductive BuildTxResult where
  | final (fee : Int) (bytes : Int) (feePerByte : Int) (totalSpent : Int)
  | error (err : String)
  deriving DecidableEq

def isFinal : BuildTxResult → Bool
  | BuildTxResult.final _ _ _ _ => true
  | BuildTxResult.error _ => false

/-- The `txs.forEach` scan of lines 207-215: marks `valid` on a final result,
throws `'Double send max!'` on a `TWO-SEND-MAX` error, ignores other errors.
The throw escapes the `forEach`, so it fires whenever such an error occurs
anywhere in the list, even after a final result. -/
def checkTxs : List BuildTxResult → Bool → Except String Bool
  | [], valid => Except.ok valid
  | BuildTxResult.final _ _ _ _ :: rest, _ => checkTxs rest true
  | BuildTxResult.error e :: rest, valid =>
    if e = "TWO-SEND-MAX" then Except.error "Double send max!"
    else checkTxs rest valid

/-- Semantic trace of what the orchestrator does towards the popup and the
discovery process: posted UI messages, the grace-interval pause, and
starting/stopping discovery. -/
inductive SessionEvent where
  | setOperationSend (totalSpent : Option Int)
  | setOperationPaymentRequest
  | selectAccount (complete : Bool)
  | insufficientFunds
  | waitMs (ms : Nat)
  | discoverStart
  | stopDiscover
  | selectFee
  | updateCustomFee
  deriving DecidableEq

/-- `restoreDiscovery` (lines 154-172): optional operation-label update, then
either a replay of the completed account list or a discovery restart. -/
def restoreDiscoveryEvents (totalIsZero discoveryCompleted : Bool) : List SessionEvent :=
  (if totalIsZero then [SessionEvent.setOperationPaymentRequest] else []) ++
    (if discoveryCompleted then [SessionEvent.selectAccount true] else [SessionEvent.discoverStart])

/-- `txs[txs.length - 1].totalSpent` (line 233): defined when the last
composed result is final. -/
def lastTotalSpent (txs : List BuildTxResult) : Option Int :=
  match txs.getLast? with
  | some (BuildTxResult.final _ _ _ ts) => some ts
  | _ => none

/-- Messages posted on the way to the fee-selection view (lines 231-246). -/
def feeViewEvents (totalIsZero : Bool) (txs : List BuildTxResult) : List SessionEvent :=
  (if totalIsZero then [SessionEvent.setOperationSend (lastTotalSpent txs)] else []) ++
    [SessionEvent.selectFee]

/-- Behaviour of the external `TransactionComposer` for the selected account:
the per-level results of `composeAllLevels()` and the single-rate `compose`
(`none` models calling it with a NaN fee rate). -/
structure ComposerEnv where
  allLevels : List BuildTxResult
  compose : Option Int → BuildTxResult

/-- `txComposer.composed[txComposer.composed.length - 1] = tx` (lines 224 and
285): in-place replacement of the last slot; on an empty array the assignment
to index `-1` leaves the array contents unchanged. -/
def replaceLast (l : List BuildTxResult) (tx : BuildTxResult) : List BuildTxResult :=
  l.set (l.length - 1) tx

/-- Outcome of `onAccountSelection`: the fee-selection view was shown with the
given composed list, or the insufficient-funds view was shown and the handler
returned, or an error was thrown. -/
inductive SelOutcome where
  | feeSelection (composed : List BuildTxResult) (events : List SessionEvent)
  | insufficient (events : List SessionEvent)
  | thrown (msg : String)
  deriving DecidableEq

/-- `onAccountSelection` (lines 187-247).  The `Nat` component counts the
extra `txComposer.compose(coinInfo.minFee)` calls made beyond
`composeAllLevels()`.  The composed array returned by `composeAllLevels` is
the composer's `composed` array, so the minimum-fee replacement is visible in
the list used for the fee view. -/
def onAccountSelection (cenv : ComposerEnv) (minFee : Int)
    (totalIsZero discoveryCompleted : Bool) : SelOutcome × Nat :=
  match checkTxs cenv.allLevels false with
  | Except.error msg => (SelOutcome.thrown msg, 0)
  | Except.ok valid =>
    if valid then
      (SelOutcome.feeSelection cenv.allLevels (feeViewEvents totalIsZero cenv.allLevels), 0)
    else
      if isFinal (cenv.compose (some minFee)) then
        (SelOutcome.feeSelection (replaceLast cenv.allLevels (cenv.compose (some minFee)))
          (feeViewEvents totalIsZero (replaceLast cenv.allLevels (cenv.compose (some minFee)))), 1)
      else
        (SelOutcome.insufficient
          ([SessionEvent.insufficientFunds, SessionEvent.waitMs 2000] ++
            restoreDiscoveryEvents totalIsZero discoveryCompleted), 1)

/-! ## The composing cycle (lines 254-301) -/

/-- The `data` payload of a UI response: a plain value (`responseData` used
directly, as for account selection) or an object with `type` and `value`
fields (fee selection / custom fee). -/
inductive UiData where
  | plain (v : JsVal)
  | typed (dtype : String) (value : JsVal)
  deriving DecidableEq

/-- A response delivered by the UI promise: its `event` tag and `data`. -/
structure UiResponse where
  event : String
  data : UiData
  deriving DecidableEq

/-- The `UI.RECEIVE_ACCOUNT` constant (external `constants/ui` module; the
exact strings are opaque, only their distinctness matters). -/
def UI_RECEIVE_ACCOUNT : String := "ui-receive_account"

def UI_RECEIVE_FEE : String := "ui-receive_fee"

def UI_CHANGE_ACCOUNT : String := "ui-change_account"

/-- `parseInt(responseData)` used as an account index: an object coerces to
`"[object Object]"`, hence NaN. -/
def dataParseInt : UiData → Option Int
  | UiData.plain v =>
    match parseIntJs v with
    | JsVal.num n => some n
    | _ => none
  | UiData.typed _ _ => none

/-- `responseData.type`: `undefined` on a non-object payload. -/
def dataType : UiData → Option String
  | UiData.plain _ => none
  | UiData.typed t _ => some t

/-- `parseInt(responseData.value)` as a fee rate (`none` models NaN). -/
def dataValueInt : UiData → Option Int
  | UiData.typed _ v =>
    match parseIntJs v with
    | JsVal.num n => some n
    | _ => none
  | UiData.plain _ => none

/-- `composed[parseInt(responseData.value)]`: a valid array index, or `none`
(NaN or negative index reads as `undefined`). -/
def dataValueIndex : UiData → Option Nat
  | UiData.typed _ v =>
    match parseIntJs v with
    | JsVal.num n => if 0 ≤ n then some n.toNat else none
    | _ => none
  | UiData.plain _ => none

/-- The mutable `txComposer`: its external behaviour and its `composed`
array. -/
structure ComposerState where
  cenv : ComposerEnv
  composed : List BuildTxResult

/-- The mutable variables of `method` that `composingCycle` touches. -/
structure LoopState where
  txComposer : Option ComposerState
  discoveryCompleted : Bool

/-- Fixed context of the loop: composer behaviour per parsed account index,
`coinInfo.minFee`, and whether `input.total === 0`. -/
structure LoopEnv where
  envOf : Option Int → ComposerEnv
  minFee : Int
  totalIsZero : Bool

/-- How one run of the loop over a finite queue of UI responses ends:
still awaiting the next response, returned a value (`none` models returning
`undefined`), or threw. -/
inductive CycleResult where
  | waiting
  | finished (tx : Option BuildTxResult)
  | thrown (msg : String)
  deriving DecidableEq

/-- `composingCycle` (lines 254-301) run over a finite queue of UI responses,
returning the emitted trace, the final loop state, and how the run ended. -/
def composingCycle (lenv : LoopEnv) :
    List UiResponse → LoopState → List SessionEvent × LoopState × CycleResult
  | [], st => ([], st, CycleResult.waiting)
  | r :: rest, st =>
    if r.event ≠ UI_RECEIVE_ACCOUNT ∧ r.event ≠ UI_RECEIVE_FEE ∧ r.event ≠ UI_CHANGE_ACCOUNT then
      -- line 260-262: filtered response, recurse and wait again
      composingCycle lenv rest st
    else if r.event = UI_RECEIVE_ACCOUNT then
      let cenv := lenv.envOf (dataParseInt r.data)
      match onAccountSelection cenv lenv.minFee lenv.totalIsZero st.discoveryCompleted with
      | (SelOutcome.thrown msg, _) =>
        ([SessionEvent.stopDiscover], ⟨some ⟨cenv, cenv.allLevels⟩, st.discoveryCompleted⟩,
          CycleResult.thrown msg)
      | (SelOutcome.feeSelection composed evts, _) =>
        let res := composingCycle lenv rest ⟨some ⟨cenv, composed⟩, st.discoveryCompleted⟩
        ((SessionEvent.stopDiscover :: evts) ++ res.1, res.2.1, res.2.2)
      | (SelOutcome.insufficient evts, _) =>
        let res := composingCycle lenv rest ⟨some ⟨cenv, cenv.allLevels⟩, st.discoveryCompleted⟩
        ((SessionEvent.stopDiscover :: evts) ++ res.1, res.2.1, res.2.2)
    else if r.event = UI_CHANGE_ACCOUNT then
      let res := composingCycle lenv rest st
      (restoreDiscoveryEvents lenv.totalIsZero st.discoveryCompleted ++ res.1, res.2.1, res.2.2)
    else if dataType r.data = some "custom" then
      match st.txComposer with
      | none => ([], st, CycleResult.thrown "TransactionComposer not initialized.")
      | some c =>
        let tx := c.cenv.compose (dataValueInt r.data)
        let res := composingCycle lenv rest
          ⟨some ⟨c.cenv, replaceLast c.composed tx⟩, st.discoveryCompleted⟩
        (SessionEvent.updateCustomFee :: res.1, res.2.1, res.2.2)
    else if dataType r.data = some "fee" then
      match st.txComposer with
      | none => ([], st, CycleResult.thrown "TransactionComposer not initialized.")
      | some c =>
        ([], st, CycleResult.finished
          (match dataValueIndex r.data with
           | some i => c.composed.get? i
           | none => none))
    else
      -- a RECEIVE_FEE response whose data.type is neither 'custom' nor 'fee'
      -- falls through every branch: the async function returns undefined
      ([], st, CycleResult.finished none)

/-! ## Finalisation (lines 311-330) -/

/-- `signedtx.message.serialized`: the signatures and the serialized raw
transaction hex. -/
structure SerializedPayload where
  signatures : List String
  serialized_tx : String
  deriving DecidableEq

/-- How `method` ends after signing: the returned object (line 327-330) or
the thrown structured object (lines 316-321), both spreading the serialized
payload. -/
inductive MethodResult where
  | ok (txid : Option String) (serialized : SerializedPayload)
  | thrownObj (custom : Bool) (error : String) (serialized : SerializedPayload)
  deriving DecidableEq

/-- Lines 311-330 of `method`: optional broadcast, `backend.dispose()`, and
the result.  The `Nat` component counts how many times `backend.dispose()`
ran on the taken path. -/
def finalize (pushTransaction : Bool) (serialized : SerializedPayload)
    (sendTransactionHex : String → Except String String) : MethodResult × Nat :=
  if pushTransaction then
    match sendTransactionHex serialized.serialized_tx with
    | Except.error msg => (MethodResult.thrownObj true msg serialized, 0)
    | Except.ok txid => (MethodResult.ok (some txid) serialized, 1)
  else
    (MethodResult.ok none serialized, 1)

def isOkResult : MethodResult → Bool
  | MethodResult.ok _ _ => true
  | MethodResult.thrownObj _ _ _ => false

/-! ## Concrete fixtures used by witnesses and counterexamples -/

def testCoin : CoinInfo := ⟨"Bitcoin", ⟨0, 5⟩, 1000⟩

/-- A concrete external environment: a one-coin table, a base58 decoder that
accepts one address with version byte 0, and a length-doubling hex encoder. -/
def testEnv : ExtEnv :=
  ⟨fun c => if c = "Bitcoin" then some testCoin else none,
   fun a => if a = "GOODADDR" then some 0 else none,
   fun s => s ++ s⟩

/-- Composer behaviour used by the stray-event run: one final level. -/
def strayComposer : ComposerEnv :=
  ⟨[BuildTxResult.final 10 100 1 500], fun _ => BuildTxResult.final 10 100 1 500⟩

def strayLoopEnv : LoopEnv := ⟨fun _ => strayComposer, 1000, false⟩

/-- Loop state in which a composer is initialised and discovery finished. -/
def strayState : LoopState := ⟨some ⟨strayComposer, strayComposer.allLevels⟩, true⟩

/-- Composer behaviour where every configured level fails but the minimum-fee
retry succeeds. -/
def retryComposer : ComposerEnv :=
  ⟨[BuildTxResult.error "NOT-ENOUGH-FUNDS", BuildTxResult.error "NOT-ENOUGH-FUNDS"],
   fun _ => BuildTxResult.final 4 220 2 5000⟩

def c9raw : RawRequest := ⟨JsVal.num 42, some [], JsVal.undef, JsVal.undef⟩

def c10raw : RawRequest := ⟨JsVal.str "Bitcoin", some [], JsVal.undef, JsVal.undef⟩

/-! ## Helper lemmas -/

theorem jsAdd_num (x y : Int) : jsAdd (JsVal.num x) (JsVal.num y) = JsVal.num (x + y) := rfl

/-- Inversion of `processOutput` on an opreturn output: the accumulator's
total and send-max flag are untouched. -/
theorem processOutput_opreturn (env : ExtEnv) (ci : CoinInfo) (len : Nat)
    (acc : OutAcc) (out : RawOutput) (acc2 : OutAcc)
    (hop : out.type = JsVal.str "opreturn")
    (h : processOutput env ci len acc out = Except.ok acc2) :
    acc2.hasSendMax = acc.hasSendMax ∧ acc2.total = acc.total := by
  unfold processOutput at h
  rw [if_pos hop] at h
  repeat' split at h
  all_goals first
    | exact Except.noConfusion h
    | (injection h with h2; subst h2; exact ⟨rfl, rfl⟩)

/-- Inversion of `processOutput` on a send-max output: the flag is set and the
total untouched. -/
theorem processOutput_sendmax (env : ExtEnv) (ci : CoinInfo) (len : Nat)
    (acc : OutAcc) (out : RawOutput) (acc2 : OutAcc)
    (hsm : out.type = JsVal.str "send-max")
    (h : processOutput env ci len acc out = Except.ok acc2) :
    acc2.hasSendMax = true ∧ acc2.total = acc.total := by
  unfold processOutput at h
  have hne : ¬ out.type = JsVal.str "opreturn" := by rw [hsm]; decide
  rw [if_neg hne, if_pos hsm] at h
  split at h
  · exact Except.noConfusion h
  · injection h with h2; subst h2; exact ⟨rfl, rfl⟩

/-- Inversion of `processOutput` on a complete output: the flag is untouched
and the raw amount is added to the running total. -/
theorem processOutput_complete (env : ExtEnv) (ci : CoinInfo) (len : Nat)
    (acc : OutAcc) (out : RawOutput) (acc2 : OutAcc)
    (h1 : ¬ out.type = JsVal.str "opreturn") (h2 : ¬ out.type = JsVal.str "send-max")
    (h : processOutput env ci len acc out = Except.ok acc2) :
    acc2.hasSendMax = acc.hasSendMax ∧ acc2.total = jsAdd acc.total out.amount := by
  unfold processOutput at h
  rw [if_neg h1, if_neg h2] at h
  repeat' split at h
  all_goals first
    | exact Except.noConfusion h
    | (injection h with h3; subst h3; exact ⟨rfl, rfl⟩)

/-- Invariant of the output-validation loop: with all complete amounts
non-negative numbers, a non-negative numeric total stays a non-negative
numeric total; the send-max flag is monotone and is set whenever a send-max
output was processed. -/
theorem validateOutputs_spec (env : ExtEnv) (ci : CoinInfo) (len : Nat)
    (outs : List RawOutput) :
    ∀ (acc acc1 : OutAcc),
      validateOutputs env ci len outs acc = Except.ok acc1 →
      (∀ o ∈ outs, ¬ o.type = JsVal.str "opreturn" → ¬ o.type = JsVal.str "send-max" →
        ∃ a : Int, 0 ≤ a ∧ o.amount = JsVal.num a) →
      ((∀ t : Int, acc.total = JsVal.num t → 0 ≤ t →
          ∃ u : Int, 0 ≤ u ∧ acc1.total = JsVal.num u) ∧
        (acc.hasSendMax = true → acc1.hasSendMax = true) ∧
        (∀ o ∈ outs, o.type = JsVal.str "send-max" → acc1.hasSendMax = true)) := by
  induction outs with
  | nil =>
    intro acc acc1 h hamt
    unfold validateOutputs at h
    injection h with h2
    subst h2
    exact ⟨fun t ht h0 => ⟨t, h0, ht⟩, fun hh => hh, fun o ho => absurd ho (List.not_mem_nil o)⟩
  | cons out rest ih =>
    intro acc acc1 h hamt
    unfold validateOutputs at h
    cases hp : processOutput env ci len acc out with
    | error e => rw [hp] at h; exact Except.noConfusion h
    | ok acc2 =>
      rw [hp] at h
      have IH := ih acc2 acc1 h (fun o ho => hamt o (List.mem_cons_of_mem _ ho))
      by_cases hop : out.type = JsVal.str "opreturn"
      · obtain ⟨hs, ht⟩ := processOutput_opreturn env ci len acc out acc2 hop hp
        refine ⟨?_, ?_, ?_⟩
        · intro t h1 h0
          exact IH.1 t (by rw [ht, h1]) h0
        · intro hh
          exact IH.2.1 (by rw [hs, hh])
        · intro o ho hosm
          rcases List.mem_cons.mp ho with h3 | h3
          · subst h3
            rw [hop] at hosm
            exact absurd hosm (by decide)
          · exact IH.2.2 o h3 hosm
      · by_cases hsm : out.type = JsVal.str "send-max"
        · obtain ⟨hs, ht⟩ := processOutput_sendmax env ci len acc out acc2 hsm hp
          refine ⟨?_, ?_, ?_⟩
          · intro t h1 h0
            exact IH.1 t (by rw [ht, h1]) h0
          · intro _
            exact IH.2.1 hs
          · intro o ho hosm
            exact IH.2.1 hs
        · obtain ⟨hs, ht⟩ := processOutput_complete env ci len acc out acc2 hop hsm hp
          obtain ⟨a, ha0, haeq⟩ := hamt out (List.mem_cons_self _ _) hop hsm
          refine ⟨?_, ?_, ?_⟩
          · intro t h1 h0
            have h4 : acc2.total = JsVal.num (t + a) := by
              rw [ht, h1, haeq, jsAdd_num]
            exact IH.1 (t + a) h4 (by omega)
          · intro hh
            exact IH.2.1 (by rw [hs, hh])
          · intro o ho hosm
            rcases List.mem_cons.mp ho with h3 | h3
            · subst h3; exact absurd hosm hsm
            · exact IH.2.2 o h3 hosm

/-- The `forEach` scan throws as soon as the composed results contain a
`TWO-SEND-MAX` error, regardless of the running flag. -/
theorem checkTxs_two_send_max (l : List BuildTxResult)
    (h : BuildTxResult.error "TWO-SEND-MAX" ∈ l) :
    ∀ v : Bool, checkTxs l v = Except.error "Double send max!" := by
  induction l with
  | nil => exact absurd h (List.not_mem_nil _)
  | cons t rest ih =>
    intro v
    cases t with
    | final f b fb ts =>
      have hm : BuildTxResult.error "TWO-SEND-MAX" ∈ rest := by
        rcases List.mem_cons.mp h with h1 | h1
        · exact BuildTxResult.noConfusion h1
        · exact h1
      simp only [checkTxs]
      exact ih hm true
    | error e =>
      by_cases he : e = "TWO-SEND-MAX"
      · simp [checkTxs, he]
      · have hm : BuildTxResult.error "TWO-SEND-MAX" ∈ rest := by
          rcases List.mem_cons.mp h with h1 | h1
          · injection h1 with h2
            exact absurd h2.symm he
          · exact h1
        simp only [checkTxs, if_neg he]
        exact ih hm v

/-- The `forEach` scan returns the running flag unchanged when no result is
final and none is a `TWO-SEND-MAX` error. -/
theorem checkTxs_ok (l : List BuildTxResult)
    (hnf : ∀ t ∈ l, isFinal t = false)
    (hnt : BuildTxResult.error "TWO-SEND-MAX" ∉ l) :
    ∀ v : Bool, checkTxs l v = Except.ok v := by
  induction l with
  | nil => intro v; rfl
  | cons t rest ih =>
    intro v
    cases t with
    | final f b fb ts =>
      have h1 := hnf _ (List.mem_cons_self _ _)
      simp [isFinal] at h1
    | error e =>
      have he : ¬ e = "TWO-SEND-MAX" := by
        intro hh
        subst hh
        exact hnt (List.mem_cons_self _ _)
      have h1 : ∀ t ∈ rest, isFinal t = false :=
        fun t ht => hnf t (List.mem_cons_of_mem _ ht)
      have h2 : BuildTxResult.error "TWO-SEND-MAX" ∉ rest :=
        fun hh => hnt (List.mem_cons_of_mem _ hh)
      simp only [checkTxs, if_neg he]
      exact ih h1 h2 v

/-! ## Claim C1 -/

/-- Claim C1, counterexample: on the broadcast-failure path (`pushTransaction`
true and `sendTransactionHex` throwing) the method throws the structured
object without ever reaching line 325, so `backend.dispose()` runs zero
times, not once. -/
theorem c1_counterexample :
    finalize true ⟨["3045deadsig"], "0100beef"⟩ (fun _ => Except.error "broadcast failed") =
      (MethodResult.thrownObj true "broadcast failed" ⟨["3045deadsig"], "0100beef"⟩, 0) := by
  decide

/-- Claim C1, amended: `backend.dispose()` runs exactly once on the paths that
return normally (no push requested, or push requested and broadcast
succeeded), and zero times on the broadcast-failure path, where the method
throws before line 325. -/
theorem c1_amended (push : Bool) (serialized : SerializedPayload)
    (sendTransactionHex : String → Except String String) :
    (finalize push serialized sendTransactionHex).2 =
      if isOkResult (finalize push serialized sendTransactionHex).1 then 1 else 0 := by
  cases push with
  | false => simp [finalize, isOkResult]
  | true =>
    cases hs : sendTransactionHex serialized.serialized_tx with
    | error m => simp [finalize, hs, isOkResult]
    | ok t => simp [finalize, hs, isOkResult]

/-! ## Claim C5 -/

/-- Claim C5, confirmed: when push is requested, signing succeeded and the
broadcast call fails, the thrown object carries `custom: true`, the error
message, and the full spread serialized payload (including the raw signed
transaction hex), so broadcast can be retried without re-signing. -/
theorem c5_broadcast_error_carries_tx (serialized : SerializedPayload)
    (sendTransactionHex : String → Except String String) (msg : String)
    (h : sendTransactionHex serialized.serialized_tx = Except.error msg) :
    (finalize true serialized sendTransactionHex).1 =
      MethodResult.thrownObj true msg serialized := by
  simp [finalize, h]

/-- Witness for C5 at a concrete serialized transaction and failing
broadcast. -/
theorem c5_witness :
    (finalize true ⟨["aa"], "beadfeed"⟩ (fun _ => Except.error "tx rejected")).1 =
      MethodResult.thrownObj true "tx rejected" ⟨["aa"], "beadfeed"⟩ :=
  c5_broadcast_error_carries_tx ⟨["aa"], "beadfeed"⟩ (fun _ => Except.error "tx rejected")
    "tx rejected" rfl

/-! ## Claim C8 -/

/-- Claim C8, confirmed: whenever the composed results contain a
`TWO-SEND-MAX` error, `onAccountSelection` throws `'Double send max!'`
immediately — no minimum-fee retry is attempted (zero extra compose calls)
and the insufficient-funds path is not taken. -/
theorem c8_double_send_max_fatal (cenv : ComposerEnv) (minFee : Int)
    (totalIsZero discoveryCompleted : Bool)
    (h : BuildTxResult.error "TWO-SEND-MAX" ∈ cenv.allLevels) :
    onAccountSelection cenv minFee totalIsZero discoveryCompleted =
      (SelOutcome.thrown "Double send max!", 0) := by
  unfold onAccountSelection
  rw [checkTxs_two_send_max cenv.allLevels h false]

/-- Witness for C8: a `TWO-SEND-MAX` error aborts the selection even when a
final result is also present and the retry would have succeeded. -/
theorem c8_witness :
    onAccountSelection
      ⟨[BuildTxResult.final 9 150 2 300, BuildTxResult.error "TWO-SEND-MAX"],
        fun _ => BuildTxResult.final 4 220 2 5000⟩ 123 true false =
      (SelOutcome.thrown "Double send max!", 0) :=
  c8_double_send_max_fatal
    ⟨[BuildTxResult.final 9 150 2 300, BuildTxResult.error "TWO-SEND-MAX"],
      fun _ => BuildTxResult.final 4 220 2 5000⟩ 123 true false (by decide)

/-! ## Claim C6 -/

/-- Claim C6, counterexample: an account selection where no configured fee
level composed to a final result, yet zero (not one) additional composition
calls are made — the results contain a `TWO-SEND-MAX` error, so the handler
throws before the minimum-fee retry. -/
theorem c6_counterexample :
    (∀ t ∈ [BuildTxResult.error "TWO-SEND-MAX"], isFinal t = false) ∧
      onAccountSelection ⟨[BuildTxResult.error "TWO-SEND-MAX"],
          fun _ => BuildTxResult.final 5 200 1 1000⟩ 1000 false true =
        (SelOutcome.thrown "Double send max!", 0) := by
  constructor
  · decide
  · rfl

/-- Claim C6, amended: when no configured level composes to a final result
and no result is a `TWO-SEND-MAX` error, exactly one additional composition
call is made, at the coin's minimum fee; if it is final it replaces the last
composed slot and the fee-selection view is shown, otherwise the
insufficient-funds message is posted, the fixed 2000 ms grace pause runs, and
discovery is restored (account-selection view replayed if discovery had
completed, restarted otherwise). -/
theorem c6_amended (cenv : ComposerEnv) (minFee : Int)
    (totalIsZero discoveryCompleted : Bool)
    (hnf : ∀ t ∈ cenv.allLevels, isFinal t = false)
    (hnt : BuildTxResult.error "TWO-SEND-MAX" ∉ cenv.allLevels) :
    (onAccountSelection cenv minFee totalIsZero discoveryCompleted).2 = 1 ∧
      (isFinal (cenv.compose (some minFee)) = true →
        (onAccountSelection cenv minFee totalIsZero discoveryCompleted).1 =
          SelOutcome.feeSelection (replaceLast cenv.allLevels (cenv.compose (some minFee)))
            (feeViewEvents totalIsZero (replaceLast cenv.allLevels (cenv.compose (some minFee))))) ∧
      (isFinal (cenv.compose (some minFee)) = false →
        (onAccountSelection cenv minFee totalIsZero discoveryCompleted).1 =
          SelOutcome.insufficient
            ([SessionEvent.insufficientFunds, SessionEvent.waitMs 2000] ++
              restoreDiscoveryEvents totalIsZero discoveryCompleted)) := by
  have hc := checkTxs_ok cenv.allLevels hnf hnt false
  refine ⟨?_, ?_, ?_⟩
  · unfold onAccountSelection
    rw [hc]
    simp only [Bool.false_eq_true, if_false]
    split <;> rfl
  · intro hf
    unfold onAccountSelection
    rw [hc]
    simp [hf]
  · intro hf
    unfold onAccountSelection
    rw [hc]
    simp [hf]

/-- Witness for C6 at a concrete composer whose levels all fail but whose
minimum-fee retry is final. -/
theorem c6_amended_witness :
    (onAccountSelection retryComposer 1000 false true).2 = 1 ∧
      (isFinal (retryComposer.compose (some 1000)) = true →
        (onAccountSelection retryComposer 1000 false true).1 =
          SelOutcome.feeSelection (replaceLast retryComposer.allLevels (retryComposer.compose (some 1000)))
            (feeViewEvents false (replaceLast retryComposer.allLevels (retryComposer.compose (some 1000))))) ∧
      (isFinal (retryComposer.compose (some 1000)) = false →
        (onAccountSelection retryComposer 1000 false true).1 =
          SelOutcome.insufficient
            ([SessionEvent.insufficientFunds, SessionEvent.waitMs 2000] ++
              restoreDiscoveryEvents false true)) :=
  c6_amended retryComposer 1000 false true (by decide) (by decide)

/-! ## Claim C7 -/

/-- Claim C7, code evaluated at the failing input: a UI response tagged
`RECEIVE_FEE` whose `data.type` is neither `'fee'` nor `'custom'` is none of
the four workflow events, yet it is not dropped — `composingCycle` falls
through every branch and terminates, returning `undefined` (which the caller
then dereferences).  The claim's required behaviour (drop silently,
re-await) is what happens only for responses whose `event` tag is none of
`RECEIVE_ACCOUNT`/`RECEIVE_FEE`/`CHANGE_ACCOUNT`. -/
theorem c7_stray_fee_event_terminates :
    composingCycle strayLoopEnv
      [⟨UI_RECEIVE_FEE, UiData.typed "unexpected-event" (JsVal.num 0)⟩] strayState =
      ([], strayState, CycleResult.finished none) := rfl

/-! ## Claim C2 -/

/-- Claim C2, counterexample: a request with exactly one send-max output and
one complete output declaring amount `-5` is accepted by the validator, yet
its total is `-5`, not `0` — the reset at line 428 only fires when
`total > 0`. -/
theorem c2_counterexample :
    params testEnv
        ⟨JsVal.str "Bitcoin",
          some [⟨JsVal.undef, JsVal.str "GOODADDR", JsVal.num (-5), JsVal.undef, JsVal.undef⟩,
            ⟨JsVal.str "send-max", JsVal.str "SOMEADDR", JsVal.undef, JsVal.undef, JsVal.undef⟩],
          JsVal.undef, JsVal.undef⟩ =
      Except.ok ⟨[ParsedOutput.complete (JsVal.str "GOODADDR") (JsVal.num (-5)),
          ParsedOutput.sendMax (JsVal.str "SOMEADDR")],
        JsVal.nan, testCoin, JsVal.num (-5), false⟩ ∧
    countSendMax [ParsedOutput.complete (JsVal.str "GOODADDR") (JsVal.num (-5)),
        ParsedOutput.sendMax (JsVal.str "SOMEADDR")] = 1 ∧
    JsVal.num (-5) ≠ JsVal.num 0 := by
  decide

/-- Claim C2, amended: for every request accepted by the validator that
contains a send-max output (necessarily exactly one), the resulting total is
`0` provided every complete output declares a non-negative numeric amount; a
negative accumulated total is kept unchanged. -/
theorem c2_amended (env : ExtEnv) (raw : RawRequest) (input : MethodInput)
    (outs : List RawOutput)
    (houts : raw.outputs = some outs)
    (hmax : ∃ o ∈ outs, o.type = JsVal.str "send-max")
    (hamt : ∀ o ∈ outs, ¬ o.type = JsVal.str "opreturn" → ¬ o.type = JsVal.str "send-max" →
      ∃ a : Int, 0 ≤ a ∧ o.amount = JsVal.num a)
    (hok : params env raw = Except.ok input) :
    input.total = JsVal.num 0 := by
  unfold params at hok
  cases hci : env.getCoinInfoByCurrency (coinQuery raw) with
  | none =>
    simp only [hci] at hok
    exact Except.noConfusion hok
  | some ci =>
    simp only [hci] at hok
    unfold paramsWithCoin at hok
    by_cases hl : (truthyJs raw.locktime && (parseIntJs raw.locktime == JsVal.nan)) = true
    · rw [if_pos hl] at hok
      exact Except.noConfusion hok
    · rw [if_neg hl] at hok
      unfold paramsOutputsStep at hok
      rw [houts] at hok
      cases hv : validateOutputs env ci outs.length outs ⟨[], JsVal.num 0, false⟩ with
      | error e =>
        simp only [hv] at hok
        exact Except.noConfusion hok
      | ok acc =>
        simp only [hv] at hok
        obtain ⟨htot, _, hsm3⟩ :=
          validateOutputs_spec env ci outs.length outs ⟨[], JsVal.num 0, false⟩ acc hv hamt
        obtain ⟨o, ho, hot⟩ := hmax
        have hacc : acc.hasSendMax = true := hsm3 o ho hot
        obtain ⟨u, hu0, hut⟩ := htot 0 rfl le_rfl
        injection hok with h2
        subst h2
        show (if jsGtZero acc.total && acc.hasSendMax then JsVal.num 0 else acc.total) =
          JsVal.num 0
        rw [hut, hacc]
        by_cases hu : 0 < u
        · simp [jsGtZero, toNumberJs, hu]
        · have hu2 : u = 0 := le_antisymm (not_lt.mp hu) hu0
          subst hu2
          simp [jsGtZero, toNumberJs]

/-- Witness for C2 at a concrete request: one complete output of amount 3
plus one send-max output; the accepted input's total is 0. -/
theorem c2_amended_witness :
    (⟨[ParsedOutput.complete (JsVal.str "GOODADDR") (JsVal.num 3),
        ParsedOutput.sendMax (JsVal.str "SOMEADDR")],
      JsVal.nan, testCoin, JsVal.num 0, false⟩ : MethodInput).total = JsVal.num 0 :=
  c2_amended testEnv
    ⟨JsVal.str "Bitcoin",
      some [⟨JsVal.undef, JsVal.str "GOODADDR", JsVal.num 3, JsVal.undef, JsVal.undef⟩,
        ⟨JsVal.str "send-max", JsVal.str "SOMEADDR", JsVal.undef, JsVal.undef, JsVal.undef⟩],
      JsVal.undef, JsVal.undef⟩
    ⟨[ParsedOutput.complete (JsVal.str "GOODADDR") (JsVal.num 3),
        ParsedOutput.sendMax (JsVal.str "SOMEADDR")],
      JsVal.nan, testCoin, JsVal.num 0, false⟩
    [⟨JsVal.undef, JsVal.str "GOODADDR", JsVal.num 3, JsVal.undef, JsVal.undef⟩,
      ⟨JsVal.str "send-max", JsVal.str "SOMEADDR", JsVal.undef, JsVal.undef, JsVal.undef⟩]
    rfl (by decide)
    (by
      intro o ho h1 h2
      rcases List.mem_cons.mp ho with h3 | h3
      · exact ⟨3, by decide, by rw [h3]⟩
      · rcases List.mem_cons.mp h3 with h4 | h4
        · exact absurd (by rw [h4]) h2
        · exact absurd h4 (List.not_mem_nil o))
    (by decide)

/-! ## Claim C3 -/

/-- Claim C3, the code evaluated at the failing input: a sole opreturn output
whose payload `"deadbeef"` is valid hexadecimal of 8 characters (well under
160) is rejected with the not-valid-hexadecimal error, because the regular
expression at line 373 only matches exactly six hex characters. -/
theorem c3_hex_regex_rejects_valid_payload :
    "deadbeef".data.all isHexChar = true ∧
    "deadbeef".length ≤ 160 ∧
    isHex6 "deadbeef" = false ∧
    params testEnv
        ⟨JsVal.str "Bitcoin",
          some [⟨JsVal.str "opreturn", JsVal.undef, JsVal.undef, JsVal.str "deadbeef",
            JsVal.undef⟩],
          JsVal.undef, JsVal.undef⟩ =
      Except.error "OP_RETURN data is not valid hexadecimal" := by
  decide

/-! ## Claim C4 -/

/-- Claim C4, counterexample: a request whose outputs field is the empty
array passes validation (producing an empty outputs list, total 0), instead
of failing with a missing-outputs error — the code only rejects
non-arrays. -/
theorem c4_counterexample :
    params testEnv ⟨JsVal.str "Bitcoin", some [], JsVal.undef, JsVal.undef⟩ =
      Except.ok ⟨[], JsVal.nan, testCoin, JsVal.num 0, false⟩ := by
  decide

/-- Claim C4, amended: the validator fails with `'Outputs is not an Array'`
exactly when the outputs field is not an array (given that the coin resolves
and the locktime check passes first); an empty outputs array is accepted. -/
theorem c4_amended (env : ExtEnv) (ci : CoinInfo) (raw : RawRequest)
    (hci : env.getCoinInfoByCurrency (coinQuery raw) = some ci)
    (hl : (truthyJs raw.locktime && (parseIntJs raw.locktime == JsVal.nan)) = false)
    (ho : raw.outputs = none) :
    params env raw = Except.error "Outputs is not an Array" := by
  unfold params paramsWithCoin paramsOutputsStep
  simp only [hci, hl, ho]
  rfl

/-- Witness for C4 at a concrete non-array outputs field. -/
theorem c4_amended_witness :
    params testEnv ⟨JsVal.str "Bitcoin", none, JsVal.undef, JsVal.undef⟩ =
      Except.error "Outputs is not an Array" :=
  c4_amended testEnv testCoin ⟨JsVal.str "Bitcoin", none, JsVal.undef, JsVal.undef⟩
    (by decide) (by decide) rfl

/-! ## Claim C9 -/

/-- Claim C9, confirmed: when `raw.coin` is not a string, the validator never
reports an unknown-coin error for it directly — it looks up the substitute
name `'Bitcoin'` and proceeds with whatever that lookup yields, failing only
when `'Bitcoin'` itself does not resolve. -/
theorem c9_coin_fallback (env : ExtEnv) (raw : RawRequest)
    (h : ∀ s, ¬ raw.coin = JsVal.str s) :
    params env raw =
      match env.getCoinInfoByCurrency "Bitcoin" with
      | none => Except.error ("Coin " ++ jsToString raw.coin ++ " not found")
      | some ci => paramsWithCoin env ci raw := by
  have hq : coinQuery raw = "Bitcoin" := by
    unfold coinQuery
    cases hc : raw.coin with
    | str s => exact absurd hc (h s)
    | undef => rfl
    | nan => rfl
    | num n => rfl
    | bool b => rfl
  unfold params
  rw [hq]

/-- Witness for C9 at a concrete numeric coin field: the lookup happens under
the name `'Bitcoin'`. -/
theorem c9_witness :
    params testEnv c9raw =
      match testEnv.getCoinInfoByCurrency "Bitcoin" with
      | none => Except.error ("Coin " ++ jsToString c9raw.coin ++ " not found")
      | some ci => paramsWithCoin testEnv ci c9raw :=
  c9_coin_fallback testEnv c9raw (fun _ hh => JsVal.noConfusion hh)

/-! ## Claim C10 -/

/-- Claim C10, counterexample: locktime `0` is falsy but present; the request
is accepted and the resulting locktime is the number `0`, not NaN — so "absent
(or falsy) implies NaN" fails for falsy-but-present values. -/
theorem c10_counterexample :
    truthyJs (JsVal.num 0) = false ∧
    params testEnv
        ⟨JsVal.str "Bitcoin",
          some [⟨JsVal.undef, JsVal.str "GOODADDR", JsVal.num 7, JsVal.undef, JsVal.undef⟩],
          JsVal.num 0, JsVal.undef⟩ =
      Except.ok ⟨[ParsedOutput.complete (JsVal.str "GOODADDR") (JsVal.num 7)],
        JsVal.num 0, testCoin, JsVal.num 7, false⟩ ∧
    JsVal.num 0 ≠ JsVal.nan := by
  decide

/-- Claim C10, amended: a falsy locktime is never rejected by the locktime
check (the check is skipped entirely), every accepted request carries
`locktime = parseInt(raw.locktime)`, and for an absent (undefined) locktime
that value is NaN — not the integer 0; only a truthy locktime that fails
integer parsing is rejected. -/
theorem c10_amended (env : ExtEnv) (ci : CoinInfo) (raw : RawRequest)
    (h : truthyJs raw.locktime = false) :
    paramsWithCoin env ci raw = paramsOutputsStep env ci raw ∧
    (∀ input, params env raw = Except.ok input → input.locktime = parseIntJs raw.locktime) ∧
    (raw.locktime = JsVal.undef → parseIntJs raw.locktime = JsVal.nan) := by
  refine ⟨?_, ?_, ?_⟩
  · unfold paramsWithCoin
    rw [h]
    rfl
  · intro input hok
    unfold params at hok
    cases hci : env.getCoinInfoByCurrency (coinQuery raw) with
    | none =>
      simp only [hci] at hok
      exact Except.noConfusion hok
    | some ci2 =>
      simp only [hci] at hok
      unfold paramsWithCoin at hok
      by_cases hl : (truthyJs raw.locktime && (parseIntJs raw.locktime == JsVal.nan)) = true
      · rw [if_pos hl] at hok
        exact Except.noConfusion hok
      · rw [if_neg hl] at hok
        unfold paramsOutputsStep at hok
        cases ho : raw.outputs with
        | none =>
          simp only [ho] at hok
          exact Except.noConfusion hok
        | some outs =>
          simp only [ho] at hok
          cases hv : validateOutputs env ci2 outs.length outs ⟨[], JsVal.num 0, false⟩ with
          | error e =>
            simp only [hv] at hok
            exact Except.noConfusion hok
          | ok acc =>
            simp only [hv] at hok
            injection hok with h2
            subst h2
            rfl
  · intro hl
    rw [hl]
    rfl

/-- Witness for C10 at a concrete request with an absent locktime. -/
theorem c10_amended_witness :
    (paramsWithCoin testEnv testCoin c10raw = paramsOutputsStep testEnv testCoin c10raw ∧
      (∀ input, params testEnv c10raw = Except.ok input →
        input.locktime = parseIntJs c10raw.locktime) ∧
      (c10raw.locktime = JsVal.undef → parseIntJs c10raw.locktime = JsVal.nan)) :=
  c10_amended testEnv testCoin c10raw (by decide)
